import Mathlib

/-!
Shallow embedding of the SkyScript recursive-descent parser
(src/frontend/parser.ts) and proofs about it.

The parser consumes a token list produced by an external lexer and builds
an AST.  The TypeScript class keeps the token list in a mutable field and
destructively shifts it; here every parse function takes the current token
list and returns the parsed node together with the remaining tokens, or an
error together with the token list at the moment the error was detected.
Recursion is driven by an explicit fuel counter (decremented once per
call), which makes every function structurally recursive; fuel exhaustion
is a distinguished error that the fuel-sufficiency theorem rules out.
-/

namespace SkyScript

/-- Token types.  Modelled from the spec (section 3 lists the closed
enumeration; `src/frontend/lexer.ts` itself is not in the sources), plus
`BinaryEquals`, which the parser references at `parser.ts:101`. -/
inductive TokenType where
  | Number
  | Identifier
  | String
  | Equals
  | DoubleEquals
  | NotEquals
  | BinaryEquals
  | Comma
  | Dot
  | Colon
  | Semicolon
  | OpenParen
  | CloseParen
  | OpenBrace
  | CloseBrace
  | OpenBracket
  | CloseBracket
  | Set
  | Lock
  | Fun
  | If
  | Else
  | EOF
deriving DecidableEq, Repr

/-- Lexer token: a type together with the raw text. -/
structure Token where
  type : TokenType
  value : String
deriving DecidableEq, Repr

mutual
/-- Expression nodes, following the fields the parser writes
(`src/frontend/parser.ts`; the node shapes of `ast.ts` per spec section 3). -/
inductive Expr where
  | identifier (symbol : String)
  | numericLiteral (value : ℚ)
  | stringLiteral (value : String)
  | binaryExpr (left : Expr) (right : Expr) (operator : String)
  | assignmentExpr (assigne : Expr) (value : Expr)
  | objectLiteral (properties : List Property)
  | callExpr (args : List Expr) (caller : Expr)
  | memberExpr (object : Expr) (property : Expr) (computed : Bool)
  | equalityExpr (left : Expr) (operator : TokenType) (right : Expr)

/-- Object-literal property; `value` is absent for shorthand properties. -/
inductive Property where
  | mk (key : String) (value : Option Expr)
end

/-- Value of the `right` field of an `IfStmt`: `parser.ts:100` initialises
it with the plain empty object `{} as Expr`, which is not any AST node. -/
inductive RawExpr where
  | emptyObject
  | ofExpr (e : Expr)

/-- Statement nodes.  An expression used in statement position is wrapped
by `exprStmt` (in TypeScript `Expr` is a subtype of `Stmt`). -/
inductive Stmt where
  | exprStmt (e : Expr)
  | varDeclaration (constant : Bool) (identifier : String) (value : Option Expr)
  | functionDeclaration (parameters : List String) (name : String) (body : List Stmt)
  | ifStmt (conditional : Expr) (operator : TokenType) (right : RawExpr)
      (consequent : List Stmt) (alternate : Option (List Stmt))

/-- Program root node. -/
structure Program where
  body : List Stmt

/-- Decimal interpretation of a digit string. -/
def digitsToNat : List Char → ℕ → ℕ
  | [], acc => acc
  | c :: cs, acc => digitsToNat cs (10 * acc + (c.toNat - 48))

/-- Model of the JavaScript `parseFloat` call at `parser.ts:420`, on the
digit-only strings the external lexer produces for `Number` tokens. -/
def parseFloatM (s : String) : ℚ :=
  (digitsToNat s.toList 0 : ℕ)

/-- Parse-time failures.  `expectErr` models the `expect` mismatch path
(`parser.ts:55`), `thrownErr` a TypeScript `throw` of a string,
`unexpectedToken` the default branch of `parse_primary_expr`
(`parser.ts:446`), `emptyBuffer` reading `tokens[0]` of an empty buffer,
and `fuelOut` is the fuel-exhaustion artifact of the embedding. -/
inductive PErr where
  | expectErr (expected : TokenType) (msg : String)
  | thrownErr (msg : String)
  | unexpectedToken
  | emptyBuffer
  | fuelOut
deriving DecidableEq, Repr

/-- Result of a parse step: a value plus the remaining tokens, or an error
plus the tokens remaining at the point the error was detected. -/
inductive PRes (α : Type) where
  | ok (val : α) (toks : List Token)
  | err (e : PErr) (toks : List Token)

/-- Sequencing: on success continue with the value and remaining tokens,
on error propagate (all errors in the source abort the whole parse). -/
def PRes.bind {α β : Type} : PRes α → (α → List Token → PRes β) → PRes β
  | .ok a ts, f => f a ts
  | .err e ts, _ => .err e ts

/-- Model of `at()` (`parser.ts:39`): reads `tokens[0]` without removing
it; on an empty buffer the field access crashes. -/
def atTok : List Token → PRes Token
  | [] => .err .emptyBuffer []
  | t :: ts => .ok t (t :: ts)

/-- Model of `eat()` (`parser.ts:46`): shifts the front token. -/
def eat : List Token → PRes Token
  | [] => .err .emptyBuffer []
  | t :: ts => .ok t ts

/-- Model of `expect` (`parser.ts:55`): shifts the front token and fails
when it is absent or its type differs from the expected one. -/
def expect (t : TokenType) (msg : String) : List Token → PRes Token
  | [] => .err (.expectErr t msg) []
  | tok :: ts => if tok.type = t then .ok tok ts else .err (.expectErr t msg) ts

/-- Parameter extraction loop of `parse_fn_declaration`
(`parser.ts:150`): walks the parsed arguments in order and throws at the
first one that is not an `Identifier`. -/
def collectParams : List Expr → Except PErr (List String)
  | [] => .ok []
  | e :: es =>
    match e with
    | .identifier s => (collectParams es).map fun ps => s :: ps
    | _ => .error (.thrownErr "Inside function declaration expected parameters to be of type string.")

/-- Discriminant test used to state the parameter restriction. -/
def isIdentExpr : Expr → Bool
  | .identifier _ => true
  | _ => false

mutual

/-- Statement dispatch, `parser.ts:81`. -/
def parse_stmt : Nat → List Token → PRes Stmt
  | 0, ts => .err .fuelOut ts
  | fuel+1, ts =>
    (atTok ts).bind fun tok ts =>
      match tok.type with
      | .Set => parse_var_declaration fuel ts
      | .Lock => parse_var_declaration fuel ts
      | .Fun => parse_fn_declaration fuel ts
      | .If => parse_if_stmt fuel ts
      | _ => (parse_expr fuel ts).bind fun e ts => .ok (.exprStmt e) ts
  termination_by structural fuel ts => fuel

/-- If-statement, `parser.ts:96`.  The `operator` and `right` fields are
initialised at `parser.ts:100` and never reassigned. -/
def parse_if_stmt : Nat → List Token → PRes Stmt
  | 0, ts => .err .fuelOut ts
  | fuel+1, ts =>
    (expect .If "Expected \"if\" keyword." ts).bind fun _ ts =>
    (parse_expr fuel ts).bind fun conditional ts =>
    (expect .OpenBrace "Expected opening brace for consequent block." ts).bind fun _ ts =>
    (parse_block_body fuel ts).bind fun consequent ts =>
    (expect .CloseBrace "Expected closing brace for consequent block." ts).bind fun _ ts =>
    (atTok ts).bind fun tok ts =>
      if tok.type = .Else then
        (eat ts).bind fun _ ts =>
        (atTok ts).bind fun tok2 ts =>
          if tok2.type = .If then
            (parse_if_stmt fuel ts).bind fun inner ts =>
              .ok (.ifStmt conditional .BinaryEquals .emptyObject consequent (some [inner])) ts
          else
            (expect .OpenBrace "Expected opening brace for alternate block." ts).bind fun _ ts =>
            (parse_block_body fuel ts).bind fun alt ts =>
            (expect .CloseBrace "Expected closing brace for alternate block." ts).bind fun _ ts =>
              .ok (.ifStmt conditional .BinaryEquals .emptyObject consequent (some alt)) ts
      else
        .ok (.ifStmt conditional .BinaryEquals .emptyObject consequent none) ts
  termination_by structural fuel ts => fuel

/-- Statement loop shared by the function-declaration body
(`parser.ts:165`) and the if-statement consequent/alternate blocks
(`parser.ts:105`, `parser.ts:123`): parse statements until EOF or a
closing brace. -/
def parse_block_body : Nat → List Token → PRes (List Stmt)
  | 0, ts => .err .fuelOut ts
  | fuel+1, ts =>
    (atTok ts).bind fun tok ts =>
      if tok.type ≠ .EOF ∧ tok.type ≠ .CloseBrace then
        (parse_stmt fuel ts).bind fun s ts =>
        (parse_block_body fuel ts).bind fun rest ts =>
          .ok (s :: rest) ts
      else .ok [] ts
  termination_by structural fuel ts => fuel

/-- Function declaration, `parser.ts:141`. -/
def parse_fn_declaration : Nat → List Token → PRes Stmt
  | 0, ts => .err .fuelOut ts
  | fuel+1, ts =>
    (eat ts).bind fun _ ts =>
    (expect .Identifier "Expected function name following fn keyword" ts).bind fun nm ts =>
    (parse_args fuel ts).bind fun args ts =>
      match collectParams args with
      | .error e => .err e ts
      | .ok params =>
        (expect .OpenBrace "Expected function body following declaration" ts).bind fun _ ts =>
        (parse_block_body fuel ts).bind fun body ts =>
        (expect .CloseBrace "Closing brace expected inside function declaration" ts).bind fun _ ts =>
          .ok (.functionDeclaration params nm.value body) ts
  termination_by structural fuel ts => fuel

/-- Variable declaration, `parser.ts:187`. -/
def parse_var_declaration : Nat → List Token → PRes Stmt
  | 0, ts => .err .fuelOut ts
  | fuel+1, ts =>
    (eat ts).bind fun kw ts =>
    (expect .Identifier "Expected identifier name following let | const keywords." ts).bind fun idt ts =>
    (atTok ts).bind fun tok ts =>
      if tok.type = .Semicolon then
        (eat ts).bind fun _ ts =>
          if kw.type = .Lock then
            .err (.thrownErr "Must assigne value to constant expression. No value provided.") ts
          else
            .ok (.varDeclaration false idt.value none) ts
      else
        (expect .Equals "Expected equals token following identifier in var declaration." ts).bind fun _ ts =>
        (parse_expr fuel ts).bind fun v ts =>
        (expect .Semicolon "Variable declaration statment must end with semicolon." ts).bind fun _ ts =>
          .ok (.varDeclaration (kw.type == .Lock) idt.value (some v)) ts

/-- Expression entry point, `parser.ts:228`. -/
def parse_expr : Nat → List Token → PRes Expr
  | 0, ts => .err .fuelOut ts
  | fuel+1, ts => parse_assignment_expr fuel ts
  termination_by structural fuel ts => fuel

/-- Assignment (right-associative), `parser.ts:232`. -/
def parse_assignment_expr : Nat → List Token → PRes Expr
  | 0, ts => .err .fuelOut ts
  | fuel+1, ts =>
    (parse_object_expr fuel ts).bind fun left ts =>
    (atTok ts).bind fun tok ts =>
      if tok.type = .Equals then
        (eat ts).bind fun _ ts =>
        (parse_assignment_expr fuel ts).bind fun value ts =>
          .ok (.assignmentExpr left value) ts
      else .ok left ts
  termination_by structural fuel ts => fuel

/-- Object literal, `parser.ts:244`. -/
def parse_object_expr : Nat → List Token → PRes Expr
  | 0, ts => .err .fuelOut ts
  | fuel+1, ts =>
    (atTok ts).bind fun tok ts =>
      if tok.type ≠ .OpenBrace then parse_additive_expr fuel ts
      else
        (eat ts).bind fun _ ts =>
        (parse_object_props fuel ts).bind fun props ts =>
        (expect .CloseBrace "Object literal missing closing brace." ts).bind fun _ ts =>
          .ok (.objectLiteral props) ts
  termination_by structural fuel ts => fuel

/-- Property loop of the object literal, `parser.ts:253`. -/
def parse_object_props : Nat → List Token → PRes (List Property)
  | 0, ts => .err .fuelOut ts
  | fuel+1, ts =>
    (atTok ts).bind fun tok ts =>
      if tok.type ≠ .EOF ∧ tok.type ≠ .CloseBrace then
        (expect .Identifier "Object literal key expected" ts).bind fun keyTok ts =>
        (atTok ts).bind fun tok2 ts =>
          if tok2.type = .Comma then
            (eat ts).bind fun _ ts =>
            (parse_object_props fuel ts).bind fun rest ts =>
              .ok (Property.mk keyTok.value none :: rest) ts
          else if tok2.type = .CloseBrace then
            (parse_object_props fuel ts).bind fun rest ts =>
              .ok (Property.mk keyTok.value none :: rest) ts
          else
            (expect .Colon "Missing colon following identifier in ObjectExpr" ts).bind fun _ ts =>
            (parse_expr fuel ts).bind fun value ts =>
            (atTok ts).bind fun tok3 ts =>
            (if tok3.type ≠ .CloseBrace then
               (expect .Comma "Expected comma or closing bracket following property" ts).bind fun _ ts =>
                 .ok () ts
             else .ok () ts).bind fun _ ts =>
            (parse_object_props fuel ts).bind fun rest ts =>
              .ok (Property.mk keyTok.value (some value) :: rest) ts
      else .ok [] ts
  termination_by structural fuel ts => fuel

/-- Additive level, `parser.ts:291`. -/
def parse_additive_expr : Nat → List Token → PRes Expr
  | 0, ts => .err .fuelOut ts
  | fuel+1, ts =>
    (parse_multiplicitave_expr fuel ts).bind fun left ts =>
    parse_additive_loop fuel left ts
  termination_by structural fuel ts => fuel

/-- Additive loop, `parser.ts:294`.  The guard mirrors the JavaScript
operator precedence: `v == "+" || (v == "-" && not_eof())`. -/
def parse_additive_loop : Nat → Expr → List Token → PRes Expr
  | 0, _, ts => .err .fuelOut ts
  | fuel+1, left, ts =>
    (atTok ts).bind fun tok ts =>
      if tok.value = "+" ∨ (tok.value = "-" ∧ tok.type ≠ .EOF) then
        (eat ts).bind fun op ts =>
        (parse_multiplicitave_expr fuel ts).bind fun right ts =>
        parse_additive_loop fuel (.binaryExpr left right op.value) ts
      else .ok left ts
  termination_by structural fuel e ts => fuel

/-- Multiplicative level, `parser.ts:309`. -/
def parse_multiplicitave_expr : Nat → List Token → PRes Expr
  | 0, ts => .err .fuelOut ts
  | fuel+1, ts =>
    (parse_call_member_expr fuel ts).bind fun left ts =>
    parse_multiplicitave_loop fuel left ts
  termination_by structural fuel ts => fuel

/-- Multiplicative loop, `parser.ts:312`. -/
def parse_multiplicitave_loop : Nat → Expr → List Token → PRes Expr
  | 0, _, ts => .err .fuelOut ts
  | fuel+1, left, ts =>
    (atTok ts).bind fun tok ts =>
      if tok.value = "/" ∨ tok.value = "*" ∨ tok.value = "%" then
        (eat ts).bind fun op ts =>
        (parse_call_member_expr fuel ts).bind fun right ts =>
        parse_multiplicitave_loop fuel (.binaryExpr left right op.value) ts
      else .ok left ts
  termination_by structural fuel e ts => fuel

/-- Call-or-member level, `parser.ts:327`. -/
def parse_call_member_expr : Nat → List Token → PRes Expr
  | 0, ts => .err .fuelOut ts
  | fuel+1, ts =>
    (parse_member_expr fuel ts).bind fun member ts =>
    (atTok ts).bind fun tok ts =>
      if tok.type = .OpenParen then parse_call_expr fuel member ts
      else .ok member ts
  termination_by structural fuel ts => fuel

/-- Call expression, `parser.ts:337`; chains only on a further `(`. -/
def parse_call_expr : Nat → Expr → List Token → PRes Expr
  | 0, _, ts => .err .fuelOut ts
  | fuel+1, caller, ts =>
    (parse_args fuel ts).bind fun args ts =>
    (atTok ts).bind fun tok ts =>
      if tok.type = .OpenParen then parse_call_expr fuel (.callExpr args caller) ts
      else .ok (.callExpr args caller) ts
  termination_by structural fuel e ts => fuel

/-- Argument list with parentheses, `parser.ts:351`. -/
def parse_args : Nat → List Token → PRes (List Expr)
  | 0, ts => .err .fuelOut ts
  | fuel+1, ts =>
    (expect .OpenParen "Expected open parenthesis" ts).bind fun _ ts =>
    (atTok ts).bind fun tok ts =>
    (if tok.type = .CloseParen then .ok ([] : List Expr) ts
     else parse_arguments_list fuel ts).bind fun args ts =>
    (expect .CloseParen "Missing closing parenthesis inside arguments list" ts).bind fun _ ts =>
      .ok args ts
  termination_by structural fuel ts => fuel

/-- Nonempty comma-separated argument list, `parser.ts:363`. -/
def parse_arguments_list : Nat → List Token → PRes (List Expr)
  | 0, ts => .err .fuelOut ts
  | fuel+1, ts =>
    (parse_assignment_expr fuel ts).bind fun first ts =>
    (parse_arguments_rest fuel ts).bind fun rest ts =>
      .ok (first :: rest) ts
  termination_by structural fuel ts => fuel

/-- Trailing `, Expr` loop of the argument list, `parser.ts:366`. -/
def parse_arguments_rest : Nat → List Token → PRes (List Expr)
  | 0, ts => .err .fuelOut ts
  | fuel+1, ts =>
    (atTok ts).bind fun tok ts =>
      if tok.type = .Comma then
        (eat ts).bind fun _ ts =>
        (parse_assignment_expr fuel ts).bind fun a ts =>
        (parse_arguments_rest fuel ts).bind fun rest ts =>
          .ok (a :: rest) ts
      else .ok [] ts
  termination_by structural fuel ts => fuel

/-- Member-access start, `parser.ts:373`. -/
def parse_member_expr : Nat → List Token → PRes Expr
  | 0, ts => .err .fuelOut ts
  | fuel+1, ts =>
    (parse_primary_expr fuel ts).bind fun obj ts =>
    parse_member_loop fuel obj ts
  termination_by structural fuel ts => fuel

/-- Member-access loop over `.` and `[`, `parser.ts:376`. -/
def parse_member_loop : Nat → Expr → List Token → PRes Expr
  | 0, _, ts => .err .fuelOut ts
  | fuel+1, obj, ts =>
    (atTok ts).bind fun tok ts =>
      if tok.type = .Dot ∨ tok.type = .OpenBracket then
        (eat ts).bind fun op ts =>
          if op.type = .Dot then
            (parse_primary_expr fuel ts).bind fun prop ts =>
              match prop with
              | .identifier s =>
                parse_member_loop fuel (.memberExpr obj (.identifier s) false) ts
              | _ => .err (.thrownErr "Cannonot use dot operator without right hand side being a identifier") ts
          else
            (parse_expr fuel ts).bind fun prop ts =>
            (expect .CloseBracket "Missing closing bracket in computed value." ts).bind fun _ ts =>
            parse_member_loop fuel (.memberExpr obj prop true) ts
      else .ok obj ts
  termination_by structural fuel e ts => fuel

/-- Primary expressions, `parser.ts:410`; the `OpenParen` case also
handles the equality form per `parser.ts:431`. -/
def parse_primary_expr : Nat → List Token → PRes Expr
  | 0, ts => .err .fuelOut ts
  | fuel+1, ts =>
    (atTok ts).bind fun tok ts =>
      match tok.type with
      | .Identifier => (eat ts).bind fun t ts => .ok (.identifier t.value) ts
      | .Number => (eat ts).bind fun t ts => .ok (.numericLiteral (parseFloatM t.value)) ts
      | .String => (eat ts).bind fun t ts => .ok (.stringLiteral t.value) ts
      | .OpenParen =>
        (eat ts).bind fun _ ts =>
        (parse_expr fuel ts).bind fun left ts =>
        (atTok ts).bind fun tok2 ts =>
        (if tok2.type = .DoubleEquals ∨ tok2.type = .NotEquals then
           (eat ts).bind fun op ts =>
           (parse_expr fuel ts).bind fun right ts =>
             .ok (Expr.equalityExpr left op.type right) ts
         else .ok left ts).bind fun value ts =>
        (expect .CloseParen "Unexpected token found inside parenthesised expression. Expected closing parenthesis." ts).bind fun _ ts =>
          .ok value ts
      | _ => .err .unexpectedToken ts
  termination_by structural fuel ts => fuel

/-- Top-level statement loop of `produceAST`, `parser.ts:73`. -/
def parse_program_body : Nat → List Token → PRes (List Stmt)
  | 0, ts => .err .fuelOut ts
  | fuel+1, ts =>
    (atTok ts).bind fun tok ts =>
      if tok.type ≠ .EOF then
        (parse_stmt fuel ts).bind fun s ts =>
        (parse_program_body fuel ts).bind fun rest ts =>
          .ok (s :: rest) ts
      else .ok [] ts

  termination_by structural fuel ts => fuel
end

/-- Top-level parse, `parser.ts:65`, starting from the token list the
external lexer would produce. -/
def produceAST (fuel : Nat) (ts : List Token) : PRes Program :=
  (parse_program_body fuel ts).bind fun body ts => .ok ⟨body⟩ ts

/-- Fuel that always suffices (see the fuel-sufficiency theorem): the
recursion depth of the parser is bounded linearly in the input length. -/
def fuelFor (ts : List Token) : Nat := 30 * ts.length + 30

end SkyScript

namespace SkyScript

/-- End-of-file token as the external lexer appends it. -/
def eofTok : Token := ⟨.EOF, "EndOfFile"⟩

/-- Token sequence of the source `a.b(1)`. -/
def toksMemberCall : List Token :=
  [⟨.Identifier, "a"⟩, ⟨.Dot, "."⟩, ⟨.Identifier, "b"⟩, ⟨.OpenParen, "("⟩,
   ⟨.Number, "1"⟩, ⟨.CloseParen, ")"⟩, eofTok]

/-- Token sequence of the source `a.b(1)[2]`. -/
def toksMemberCallIndex : List Token :=
  [⟨.Identifier, "a"⟩, ⟨.Dot, "."⟩, ⟨.Identifier, "b"⟩, ⟨.OpenParen, "("⟩,
   ⟨.Number, "1"⟩, ⟨.CloseParen, ")"⟩, ⟨.OpenBracket, "["⟩, ⟨.Number, "2"⟩,
   ⟨.CloseBracket, "]"⟩, eofTok]

/-- Token sequence of the source `set x;`. -/
def toksSetBare : List Token :=
  [⟨.Set, "set"⟩, ⟨.Identifier, "x"⟩, ⟨.Semicolon, ";"⟩, eofTok]

/-- Token sequence of the source `lock x;`. -/
def toksLockBare : List Token :=
  [⟨.Lock, "lock"⟩, ⟨.Identifier, "x"⟩, ⟨.Semicolon, ";"⟩, eofTok]

/-- Token sequence of the source `(a == b)`. -/
def toksParenEq : List Token :=
  [⟨.OpenParen, "("⟩, ⟨.Identifier, "a"⟩, ⟨.DoubleEquals, "=="⟩,
   ⟨.Identifier, "b"⟩, ⟨.CloseParen, ")"⟩, eofTok]

/-- Token sequence of a bare `a == b` for arbitrary identifier spellings. -/
def toksBareEq (a b : String) : List Token :=
  [⟨.Identifier, a⟩, ⟨.DoubleEquals, "=="⟩, ⟨.Identifier, b⟩, eofTok]

/-- Token sequence of the source `{ a: 1, }` (trailing comma after a
key-value property). -/
def toksObjTrailing : List Token :=
  [⟨.OpenBrace, "\x7b"⟩, ⟨.Identifier, "a"⟩, ⟨.Colon, ":"⟩, ⟨.Number, "1"⟩,
   ⟨.Comma, ","⟩, ⟨.CloseBrace, "\x7d"⟩, eofTok]

/-- Token sequence of the source `{ a: 1 b: 2 }` (missing separator). -/
def toksObjNoComma : List Token :=
  [⟨.OpenBrace, "\x7b"⟩, ⟨.Identifier, "a"⟩, ⟨.Colon, ":"⟩, ⟨.Number, "1"⟩,
   ⟨.Identifier, "b"⟩, ⟨.Colon, ":"⟩, ⟨.Number, "2"⟩, ⟨.CloseBrace, "\x7d"⟩, eofTok]

/-- Token sequence of the source `1 + 2 * 3`. -/
def toksPrecedence : List Token :=
  [⟨.Number, "1"⟩, ⟨.Identifier, "+"⟩, ⟨.Number, "2"⟩, ⟨.Identifier, "*"⟩,
   ⟨.Number, "3"⟩, eofTok]

/-- Token sequence of the source `1 - 2 - 3`. -/
def toksLeftAssoc : List Token :=
  [⟨.Number, "1"⟩, ⟨.Identifier, "-"⟩, ⟨.Number, "2"⟩, ⟨.Identifier, "-"⟩,
   ⟨.Number, "3"⟩, eofTok]

/-- Token sequence of the source `fun f(1) { }`. -/
def toksFnBadParam : List Token :=
  [⟨.Fun, "fun"⟩, ⟨.Identifier, "f"⟩, ⟨.OpenParen, "("⟩, ⟨.Number, "1"⟩,
   ⟨.CloseParen, ")"⟩, ⟨.OpenBrace, "\x7b"⟩, ⟨.CloseBrace, "\x7d"⟩, eofTok]

/-- Token sequence of the source `if x { }`. -/
def toksIfSimple : List Token :=
  [⟨.If, "if"⟩, ⟨.Identifier, "x"⟩, ⟨.OpenBrace, "\x7b"⟩,
   ⟨.CloseBrace, "\x7d"⟩, eofTok]

/-- Token sequence of the source `1;`. -/
def toksExprSemi : List Token :=
  [⟨.Number, "1"⟩, ⟨.Semicolon, ";"⟩, eofTok]

/-- Token sequence of the source `set x = 1` (no semicolon). -/
def toksSetNoSemi : List Token :=
  [⟨.Set, "set"⟩, ⟨.Identifier, "x"⟩, ⟨.Equals, "="⟩, ⟨.Number, "1"⟩, eofTok]

/-- Absence of the fuel-exhaustion artifact: the computation finished as
the source program would, with a value or a genuine parse error. -/
def NoFuelOut {α : Type} (r : PRes α) : Prop :=
  ∀ rest, r ≠ .err .fuelOut rest

/-- On success at most `n` tokens remain. -/
def ConsumesLe {α : Type} (r : PRes α) (n : ℕ) : Prop :=
  ∀ a rest, r = .ok a rest → rest.length ≤ n

/-- On success strictly fewer than `n` tokens remain. -/
def ConsumesLt {α : Type} (r : PRes α) (n : ℕ) : Prop :=
  ∀ a rest, r = .ok a rest → rest.length < n

/-- A result that did not run out of fuel and does not grow the input. -/
def Sound {α : Type} (r : PRes α) (n : ℕ) : Prop :=
  NoFuelOut r ∧ ConsumesLe r n

/-- A result that did not run out of fuel and strictly consumed input. -/
def SoundLt {α : Type} (r : PRes α) (n : ℕ) : Prop :=
  NoFuelOut r ∧ ConsumesLt r n

/-- Success of a bind factors through success of both stages. -/
theorem PRes.bind_ok {α β : Type} {r : PRes α} {f : α → List Token → PRes β}
    {b : β} {ts' : List Token} (h : r.bind f = .ok b ts') :
    ∃ a ts₀, r = .ok a ts₀ ∧ f a ts₀ = .ok b ts' := by
  cases r with
  | ok a ts₀ => exact ⟨a, ts₀, rfl, h⟩
  | err e ts₀ => simp [PRes.bind] at h

end SkyScript

namespace SkyScript

/-- C1 (counterexample): on the token sequence of `a.b(1)[2]` the parser
does not produce any AST: `parse_call_expr` chains only on a further `(`,
so the `[2]` suffix is left unconsumed and the next statement parse hits
the `[` token in primary position, a fatal unexpected-token error.  This
refutes the claim that `a.b(1)[2]` parses to a computed MemberExpr
wrapping the call. -/
theorem claimC1_counterexample :
    produceAST (fuelFor toksMemberCallIndex) toksMemberCallIndex
      = .err .unexpectedToken
          [⟨.OpenBracket, "["⟩, ⟨.Number, "2"⟩, ⟨.CloseBracket, "]"⟩, eofTok] := rfl

/-- C1 (amended): `a.b(1)` parses to a CallExpr whose caller is a
non-computed MemberExpr over Identifier `a`, but a member access written
after a call's argument list does not attach to the call result:
`a.b(1)[2]` is a fatal unexpected-token error at the `[`. -/
theorem claimC1_theorem :
    produceAST (fuelFor toksMemberCall) toksMemberCall
      = .ok ⟨[.exprStmt (.callExpr [.numericLiteral 1]
          (.memberExpr (.identifier "a") (.identifier "b") false))]⟩ [eofTok] ∧
    produceAST (fuelFor toksMemberCallIndex) toksMemberCallIndex
      = .err .unexpectedToken
          [⟨.OpenBracket, "["⟩, ⟨.Number, "2"⟩, ⟨.CloseBracket, "]"⟩, eofTok] :=
  ⟨rfl, rfl⟩

/-- C2: `set x;` parses to a VarDeclaration with `constant = false` and no
value, while `lock x;` (immutable declaration without initializer) raises
the Declaration Error thrown at `parser.ts:197` and parsing halts. -/
theorem claimC2_theorem :
    produceAST (fuelFor toksSetBare) toksSetBare
      = .ok ⟨[.varDeclaration false "x" none]⟩ [eofTok] ∧
    produceAST (fuelFor toksLockBare) toksLockBare
      = .err (.thrownErr "Must assigne value to constant expression. No value provided.")
          [eofTok] :=
  ⟨rfl, rfl⟩

/-- C3: `(a == b)` parses to an EqualityExpr with left Identifier `a`,
the `==` operator and right Identifier `b`, while a bare `a == b` without
parentheses is a fatal Syntax Error (unexpected `==` in primary position)
for every pair of identifier spellings. -/
theorem claimC3_theorem :
    produceAST (fuelFor toksParenEq) toksParenEq
      = .ok ⟨[.exprStmt (.equalityExpr (.identifier "a") .DoubleEquals
          (.identifier "b"))]⟩ [eofTok] ∧
    ∀ a b : String, produceAST (fuelFor (toksBareEq a b)) (toksBareEq a b)
      = .err .unexpectedToken [⟨.DoubleEquals, "=="⟩, ⟨.Identifier, b⟩, eofTok] :=
  ⟨rfl, fun _ b => rfl⟩

/-- C4 (counterexample): `{ a: 1, }` — a trailing comma after a
`key : Expr` property — is accepted: after the value the code merely
expects a comma when the next token is not a close-brace
(`parser.ts:278`), and the loop re-check then sees the close-brace and
exits.  This refutes the claim that such an input is rejected. -/
theorem claimC4_counterexample :
    produceAST (fuelFor toksObjTrailing) toksObjTrailing
      = .ok ⟨[.exprStmt (.objectLiteral [Property.mk "a" (some (.numericLiteral 1))])]⟩
          [eofTok] := rfl

/-- C4 (amended): after a `key : Expr` property the next token must be a
comma or the closing brace — `{ a: 1 b: 2 }` is a Syntax Error — but the
comma need not be followed by another property, so the trailing comma in
`{ a: 1, }` is accepted and yields the one-property ObjectLiteral. -/
theorem claimC4_theorem :
    produceAST (fuelFor toksObjTrailing) toksObjTrailing
      = .ok ⟨[.exprStmt (.objectLiteral [Property.mk "a" (some (.numericLiteral 1))])]⟩
          [eofTok] ∧
    produceAST (fuelFor toksObjNoComma) toksObjNoComma
      = .err (.expectErr .Comma "Expected comma or closing bracket following property")
          [⟨.Colon, ":"⟩, ⟨.Number, "2"⟩, ⟨.CloseBrace, "\x7d"⟩, eofTok] :=
  ⟨rfl, rfl⟩

/-- C5: multiplicative operators bind tighter than additive ones —
`1 + 2 * 3` parses to BinaryExpr(+, 1, BinaryExpr(*, 2, 3)) and not to
BinaryExpr(*, BinaryExpr(+, 1, 2), 3). -/
theorem claimC5_theorem :
    produceAST (fuelFor toksPrecedence) toksPrecedence
      = .ok ⟨[.exprStmt (.binaryExpr (.numericLiteral 1)
          (.binaryExpr (.numericLiteral 2) (.numericLiteral 3) "*") "+")]⟩ [eofTok] ∧
    ∀ rest, produceAST (fuelFor toksPrecedence) toksPrecedence
      ≠ .ok ⟨[.exprStmt (.binaryExpr (.binaryExpr (.numericLiteral 1) (.numericLiteral 2) "+")
          (.numericLiteral 3) "*")]⟩ rest := by
  have hok : produceAST (fuelFor toksPrecedence) toksPrecedence
      = .ok ⟨[.exprStmt (.binaryExpr (.numericLiteral 1)
          (.binaryExpr (.numericLiteral 2) (.numericLiteral 3) "*") "+")]⟩ [eofTok] := rfl
  refine ⟨hok, fun rest h => ?_⟩
  have h2 := hok.symm.trans h
  simp at h2

/-- C6: additive operators are left-associative — `1 - 2 - 3` parses to
BinaryExpr(-, BinaryExpr(-, 1, 2), 3). -/
theorem claimC6_theorem :
    produceAST (fuelFor toksLeftAssoc) toksLeftAssoc
      = .ok ⟨[.exprStmt (.binaryExpr
          (.binaryExpr (.numericLiteral 1) (.numericLiteral 2) "-")
          (.numericLiteral 3) "-")]⟩ [eofTok] := rfl

/-- C7: in a function declaration every parsed argument that is not an
Identifier raises the Declaration Error thrown at `parser.ts:153`, and on
`fun f(1) { }` this error is raised while the body's open-brace is still
unconsumed (the remaining tokens at the error still start with it). -/
theorem claimC7_theorem :
    (∀ args : List Expr, (∃ e ∈ args, isIdentExpr e = false) →
        collectParams args
          = .error (.thrownErr "Inside function declaration expected parameters to be of type string.")) ∧
    parse_fn_declaration (fuelFor toksFnBadParam) toksFnBadParam
      = .err (.thrownErr "Inside function declaration expected parameters to be of type string.")
          [⟨.OpenBrace, "\x7b"⟩, ⟨.CloseBrace, "\x7d"⟩, eofTok] := by
  constructor
  · intro args h
    induction args with
    | nil => simp at h
    | cons e es ih =>
      cases e with
      | identifier s =>
        have hes : ∃ x ∈ es, isIdentExpr x = false := by
          obtain ⟨x, hx, hfx⟩ := h
          rcases List.mem_cons.mp hx with h1 | h1
          · rw [h1] at hfx; simp [isIdentExpr] at hfx
          · exact ⟨x, h1, hfx⟩
        simp [collectParams, ih hes, Except.map]
      | numericLiteral v => simp [collectParams]
      | stringLiteral v => simp [collectParams]
      | binaryExpr l r o => simp [collectParams]
      | assignmentExpr a v => simp [collectParams]
      | objectLiteral ps => simp [collectParams]
      | callExpr a c => simp [collectParams]
      | memberExpr o p c => simp [collectParams]
      | equalityExpr l o r => simp [collectParams]
  · rfl

/-- C7 (witness): the non-identifier argument list `[1]` of `fun f(1)`
triggers the Declaration Error. -/
theorem claimC7_witness :
    (∃ e ∈ [Expr.numericLiteral 1], isIdentExpr e = false) ∧
    collectParams [Expr.numericLiteral 1]
      = .error (.thrownErr "Inside function declaration expected parameters to be of type string.") :=
  ⟨⟨Expr.numericLiteral 1, by simp, rfl⟩,
   claimC7_theorem.1 [Expr.numericLiteral 1] ⟨Expr.numericLiteral 1, by simp, rfl⟩⟩

/-- C9: every IfStmt node `parse_if_stmt` returns carries an `operator`
field equal to the token type BinaryEquals and a `right` field equal to
the empty object, independently of the input — these fields come from the
constants at `parser.ts:100` and never reflect the parsed conditional. -/
theorem claimC9_theorem :
    ∀ (fuel : Nat) (ts : List Token) (st : Stmt) (rest : List Token),
      parse_if_stmt fuel ts = .ok st rest →
      ∃ c cons alt, st = Stmt.ifStmt c .BinaryEquals .emptyObject cons alt := by
  intro fuel ts st rest h
  match fuel with
  | 0 => simp [parse_if_stmt] at h
  | fuel+1 =>
    simp only [parse_if_stmt] at h
    obtain ⟨_, ts1, -, h⟩ := PRes.bind_ok h
    obtain ⟨cond, ts2, -, h⟩ := PRes.bind_ok h
    obtain ⟨_, ts3, -, h⟩ := PRes.bind_ok h
    obtain ⟨cons, ts4, -, h⟩ := PRes.bind_ok h
    obtain ⟨_, ts5, -, h⟩ := PRes.bind_ok h
    obtain ⟨tok, ts6, -, h⟩ := PRes.bind_ok h
    split at h
    · obtain ⟨_, ts7, -, h⟩ := PRes.bind_ok h
      obtain ⟨tok2, ts8, -, h⟩ := PRes.bind_ok h
      split at h
      · obtain ⟨inner, ts9, -, h⟩ := PRes.bind_ok h
        cases h
        exact ⟨_, _, _, rfl⟩
      · obtain ⟨_, tsA, -, h⟩ := PRes.bind_ok h
        obtain ⟨alt, tsB, -, h⟩ := PRes.bind_ok h
        obtain ⟨_, tsC, -, h⟩ := PRes.bind_ok h
        cases h
        exact ⟨_, _, _, rfl⟩
    · cases h
      exact ⟨_, _, _, rfl⟩

/-- C9 (witness): parsing `if x { }` succeeds and the returned node has
`operator = BinaryEquals` and the empty-object `right` field. -/
theorem claimC9_witness :
    ∃ c cons alt,
      Stmt.ifStmt (.identifier "x") .BinaryEquals .emptyObject [] none
        = Stmt.ifStmt c TokenType.BinaryEquals RawExpr.emptyObject cons alt :=
  claimC9_theorem (fuelFor toksIfSimple) toksIfSimple
    (Stmt.ifStmt (.identifier "x") .BinaryEquals .emptyObject [] none) [eofTok] rfl

/-- C10: an expression statement consumes no trailing semicolon — parsing
`1;` as a statement returns the literal and leaves the `;` unconsumed —
and a semicolon in statement position is a fatal unexpected-token error
(so `1;` fails as a whole program), while a variable declaration without
its semicolon (`set x = 1`) is a Syntax Error expecting Semicolon. -/
theorem claimC10_theorem :
    parse_stmt (fuelFor toksExprSemi) toksExprSemi
      = .ok (.exprStmt (.numericLiteral 1)) [⟨.Semicolon, ";"⟩, eofTok] ∧
    produceAST (fuelFor toksExprSemi) toksExprSemi
      = .err .unexpectedToken [⟨.Semicolon, ";"⟩, eofTok] ∧
    produceAST (fuelFor toksSetNoSemi) toksSetNoSemi
      = .err (.expectErr .Semicolon "Variable declaration statment must end with semicolon.") [] :=
  ⟨rfl, rfl, rfl⟩

end SkyScript

namespace SkyScript

/-- Strict consumption is a particular case of soundness. -/
theorem SoundLt.toSound {α : Type} {r : PRes α} {n : ℕ} (h : SoundLt r n) :
    Sound r n :=
  ⟨h.1, fun a rest hr => le_of_lt (h.2 a rest hr)⟩

/-- Success results are sound when the remainder is short enough. -/
theorem sound_ok {α : Type} {a : α} {rest : List Token} {n : ℕ}
    (h : rest.length ≤ n) : Sound (.ok a rest) n :=
  ⟨fun _ hh => PRes.noConfusion hh, fun _ _ hr => by cases hr; exact h⟩

/-- Success results strictly consume when the remainder is shorter. -/
theorem soundLt_ok {α : Type} {a : α} {rest : List Token} {n : ℕ}
    (h : rest.length < n) : SoundLt (.ok a rest) n :=
  ⟨fun _ hh => PRes.noConfusion hh, fun _ _ hr => by cases hr; exact h⟩

/-- Genuine parse errors are sound. -/
theorem sound_err {α : Type} {e : PErr} {ts : List Token} {n : ℕ}
    (h : e ≠ PErr.fuelOut) : Sound (PRes.err e ts : PRes α) n :=
  ⟨fun rest hh => by injection hh with h1 h2; exact h h1,
   fun _ _ hr => PRes.noConfusion hr⟩

/-- Genuine parse errors satisfy the strict bound vacuously. -/
theorem soundLt_err {α : Type} {e : PErr} {ts : List Token} {n : ℕ}
    (h : e ≠ PErr.fuelOut) : SoundLt (PRes.err e ts : PRes α) n :=
  ⟨fun rest hh => by injection hh with h1 h2; exact h h1,
   fun _ _ hr => PRes.noConfusion hr⟩

/-- `at()` never changes the buffer. -/
theorem sound_atTok {ts : List Token} : Sound (atTok ts) ts.length := by
  cases ts with
  | nil => exact sound_err (by simp)
  | cons t tl => exact sound_ok (le_refl _)

/-- `eat()` strictly shortens the buffer on success. -/
theorem soundLt_eat {ts : List Token} : SoundLt (eat ts) ts.length := by
  cases ts with
  | nil => exact soundLt_err (by simp)
  | cons t tl => exact soundLt_ok (by simp)

/-- `expect` strictly shortens the buffer on success. -/
theorem soundLt_expect {t : TokenType} {m : String} {ts : List Token} :
    SoundLt (expect t m ts) ts.length := by
  cases ts with
  | nil => exact soundLt_err (by simp)
  | cons tok tl =>
    simp only [expect]
    split
    · exact soundLt_ok (by simp)
    · exact soundLt_err (by simp)

/-- Binding a sound stage with a sound continuation is sound. -/
theorem sound_bind {α β : Type} {r : PRes α} {f : α → List Token → PRes β} {n : ℕ}
    (h : Sound r n)
    (hf : ∀ a ts, r = .ok a ts → ts.length ≤ n → Sound (f a ts) ts.length) :
    Sound (r.bind f) n := by
  cases r with
  | err e ts =>
    have he : e ≠ PErr.fuelOut := fun hh => h.1 ts (by rw [hh])
    simp only [PRes.bind]
    exact sound_err he
  | ok a ts =>
    have hle : ts.length ≤ n := h.2 a ts rfl
    have h2 := hf a ts rfl hle
    exact ⟨h2.1, fun b rest hr => le_trans (h2.2 b rest hr) hle⟩

/-- Binding a sound stage with a strictly consuming continuation strictly
consumes. -/
theorem sound_bind_lt {α β : Type} {r : PRes α} {f : α → List Token → PRes β} {n : ℕ}
    (h : Sound r n)
    (hf : ∀ a ts, r = .ok a ts → ts.length ≤ n → SoundLt (f a ts) ts.length) :
    SoundLt (r.bind f) n := by
  cases r with
  | err e ts =>
    have he : e ≠ PErr.fuelOut := fun hh => h.1 ts (by rw [hh])
    simp only [PRes.bind]
    exact soundLt_err he
  | ok a ts =>
    have hle : ts.length ≤ n := h.2 a ts rfl
    have h2 := hf a ts rfl hle
    exact ⟨h2.1, fun b rest hr => lt_of_lt_of_le (h2.2 b rest hr) hle⟩

/-- Binding a strictly consuming stage with a sound continuation strictly
consumes. -/
theorem soundLt_bind {α β : Type} {r : PRes α} {f : α → List Token → PRes β} {n : ℕ}
    (h : SoundLt r n)
    (hf : ∀ a ts, r = .ok a ts → ts.length < n → Sound (f a ts) ts.length) :
    SoundLt (r.bind f) n := by
  cases r with
  | err e ts =>
    have he : e ≠ PErr.fuelOut := fun hh => h.1 ts (by rw [hh])
    simp only [PRes.bind]
    exact soundLt_err he
  | ok a ts =>
    have hlt : ts.length < n := h.2 a ts rfl
    have h2 := hf a ts rfl hlt
    exact ⟨h2.1, fun b rest hr => lt_of_le_of_lt (h2.2 b rest hr) hlt⟩

end SkyScript

namespace SkyScript

/-- The parameter loop only ever throws its fixed Declaration Error. -/
theorem collectParams_error {args : List Expr} {e : PErr}
    (h : collectParams args = .error e) :
    e = .thrownErr "Inside function declaration expected parameters to be of type string." := by
  induction args with
  | nil => simp [collectParams] at h
  | cons a as ih =>
    cases a with
    | identifier s =>
      simp only [collectParams] at h
      cases hr : collectParams as with
      | error e' =>
        rw [hr] at h
        simp only [Except.map, Except.error.injEq] at h
        subst h
        exact ih hr
      | ok ps => rw [hr] at h; simp [Except.map] at h
    | numericLiteral v => simp [collectParams] at h; exact h.symm
    | stringLiteral v => simp [collectParams] at h; exact h.symm
    | binaryExpr l r o => simp [collectParams] at h; exact h.symm
    | assignmentExpr x v => simp [collectParams] at h; exact h.symm
    | objectLiteral ps => simp [collectParams] at h; exact h.symm
    | callExpr x c => simp [collectParams] at h; exact h.symm
    | memberExpr o p c => simp [collectParams] at h; exact h.symm
    | equalityExpr l o r => simp [collectParams] at h; exact h.symm

/-- Induction step for `parse_primary_expr`: with enough fuel the primary
parser does not exhaust fuel and strictly consumes on success. -/
theorem primary_step (k : ℕ)
    (ihExpr : ∀ ts, 30 * ts.length + 7 < k → SoundLt (parse_expr k ts) ts.length) :
    ∀ ts, 30 * ts.length < k + 1 → SoundLt (parse_primary_expr (k+1) ts) ts.length := by
  intro ts hb
  simp only [parse_primary_expr]
  refine sound_bind_lt sound_atTok ?_
  intro tok ts1 hat hle1
  rcases tok with ⟨ty, v⟩
  cases ty
  case Identifier =>
    refine soundLt_bind soundLt_eat ?_
    intro t ts2 he hlt2
    exact sound_ok (le_refl _)
  case Number =>
    refine soundLt_bind soundLt_eat ?_
    intro t ts2 he hlt2
    exact sound_ok (le_refl _)
  case String =>
    refine soundLt_bind soundLt_eat ?_
    intro t ts2 he hlt2
    exact sound_ok (le_refl _)
  case OpenParen =>
    refine soundLt_bind soundLt_eat ?_
    intro _ ts2 he hlt2
    refine sound_bind (ihExpr ts2 (by omega)).toSound ?_
    intro left ts3 hex hle3
    refine sound_bind sound_atTok ?_
    intro tok2 ts4 hat2 hle4
    refine sound_bind ?_ ?_
    · split
      · refine (soundLt_bind soundLt_eat ?_).toSound
        intro op ts5 he2 hlt5
        refine sound_bind (ihExpr ts5 (by omega)).toSound ?_
        intro right ts6 hex2 hle6
        exact sound_ok (le_refl _)
      · exact sound_ok (le_refl _)
    · intro value ts5 hv hle5
      refine (soundLt_bind soundLt_expect ?_).toSound
      intro _ ts6 hcp hlt6
      exact sound_ok (le_refl _)
  all_goals exact soundLt_err (by simp)

/-- Induction step for `parse_member_loop`. -/
theorem member_loop_step (k : ℕ)
    (ihPrim : ∀ ts, 30 * ts.length < k → SoundLt (parse_primary_expr k ts) ts.length)
    (ihExpr : ∀ ts, 30 * ts.length + 7 < k → SoundLt (parse_expr k ts) ts.length)
    (ihLoop : ∀ left ts, 30 * ts.length < k → Sound (parse_member_loop k left ts) ts.length) :
    ∀ left ts, 30 * ts.length < k + 1 → Sound (parse_member_loop (k+1) left ts) ts.length := by
  intro left ts hb
  simp only [parse_member_loop]
  refine sound_bind sound_atTok ?_
  intro tok ts1 hat hle1
  split
  · refine (soundLt_bind soundLt_eat ?_).toSound
    intro op ts2 he hlt2
    split
    · refine sound_bind (ihPrim ts2 (by omega)).toSound ?_
      intro prop ts3 hpr hle3
      cases prop
      case identifier s => exact ihLoop _ ts3 (by omega)
      all_goals exact sound_err (by simp)
    · refine sound_bind (ihExpr ts2 (by omega)).toSound ?_
      intro prop ts3 hex hle3
      refine (soundLt_bind soundLt_expect ?_).toSound
      intro _ ts4 hcb hlt4
      exact ihLoop _ ts4 (by omega)
  · exact sound_ok (le_refl _)

/-- Induction step for `parse_member_expr`. -/
theorem member_step (k : ℕ)
    (ihPrim : ∀ ts, 30 * ts.length < k → SoundLt (parse_primary_expr k ts) ts.length)
    (ihLoop : ∀ left ts, 30 * ts.length < k → Sound (parse_member_loop k left ts) ts.length) :
    ∀ ts, 30 * ts.length + 1 < k + 1 → SoundLt (parse_member_expr (k+1) ts) ts.length := by
  intro ts hb
  simp only [parse_member_expr]
  refine soundLt_bind (ihPrim ts (by omega)) ?_
  intro obj ts1 hp hlt1
  exact ihLoop obj ts1 (by omega)

/-- Induction step for `parse_args`. -/
theorem args_step (k : ℕ)
    (ihArgsList : ∀ ts, 30 * ts.length + 7 < k → SoundLt (parse_arguments_list k ts) ts.length) :
    ∀ ts, 30 * ts.length < k + 1 → SoundLt (parse_args (k+1) ts) ts.length := by
  intro ts hb
  simp only [parse_args]
  refine soundLt_bind soundLt_expect ?_
  intro _ ts1 hop hlt1
  refine sound_bind sound_atTok ?_
  intro tok ts2 hat hle2
  refine sound_bind ?_ ?_
  · split
    · exact sound_ok (le_refl _)
    · exact (ihArgsList ts2 (by omega)).toSound
  · intro args ts3 hargs hle3
    refine (soundLt_bind soundLt_expect ?_).toSound
    intro _ ts4 hcp hlt4
    exact sound_ok (le_refl _)

/-- Induction step for `parse_arguments_rest`. -/
theorem arguments_rest_step (k : ℕ)
    (ihAssign : ∀ ts, 30 * ts.length + 6 < k → SoundLt (parse_assignment_expr k ts) ts.length)
    (ihRest : ∀ ts, 30 * ts.length < k → Sound (parse_arguments_rest k ts) ts.length) :
    ∀ ts, 30 * ts.length < k + 1 → Sound (parse_arguments_rest (k+1) ts) ts.length := by
  intro ts hb
  simp only [parse_arguments_rest]
  refine sound_bind sound_atTok ?_
  intro tok ts1 hat hle1
  split
  · refine (soundLt_bind soundLt_eat ?_).toSound
    intro _ ts2 he hlt2
    refine soundLt_bind (ihAssign ts2 (by omega)) ?_ |>.toSound
    intro a ts3 has hlt3
    refine sound_bind (ihRest ts3 (by omega)) ?_
    intro rest ts4 hr hle4
    exact sound_ok (le_refl _)
  · exact sound_ok (le_refl _)

/-- Induction step for `parse_arguments_list`. -/
theorem arguments_list_step (k : ℕ)
    (ihAssign : ∀ ts, 30 * ts.length + 6 < k → SoundLt (parse_assignment_expr k ts) ts.length)
    (ihRest : ∀ ts, 30 * ts.length < k → Sound (parse_arguments_rest k ts) ts.length) :
    ∀ ts, 30 * ts.length + 7 < k + 1 → SoundLt (parse_arguments_list (k+1) ts) ts.length := by
  intro ts hb
  simp only [parse_arguments_list]
  refine soundLt_bind (ihAssign ts (by omega)) ?_
  intro first ts1 h1 hlt1
  refine sound_bind (ihRest ts1 (by omega)) ?_
  intro rest ts2 h2 hle2
  exact sound_ok (le_refl _)

/-- Induction step for `parse_call_expr`. -/
theorem call_expr_step (k : ℕ)
    (ihArgs : ∀ ts, 30 * ts.length < k → SoundLt (parse_args k ts) ts.length)
    (ihCall : ∀ left ts, 30 * ts.length + 1 < k → Sound (parse_call_expr k left ts) ts.length) :
    ∀ left ts, 30 * ts.length + 1 < k + 1 → Sound (parse_call_expr (k+1) left ts) ts.length := by
  intro left ts hb
  simp only [parse_call_expr]
  refine (soundLt_bind (ihArgs ts (by omega)) ?_).toSound
  intro args ts1 ha hlt1
  refine sound_bind sound_atTok ?_
  intro tok ts2 hat hle2
  split
  · exact ihCall _ ts2 (by omega)
  · exact sound_ok (le_refl _)

/-- Induction step for `parse_call_member_expr`. -/
theorem call_member_step (k : ℕ)
    (ihMem : ∀ ts, 30 * ts.length + 1 < k → SoundLt (parse_member_expr k ts) ts.length)
    (ihCallE : ∀ left ts, 30 * ts.length + 1 < k → Sound (parse_call_expr k left ts) ts.length) :
    ∀ ts, 30 * ts.length + 2 < k + 1 → SoundLt (parse_call_member_expr (k+1) ts) ts.length := by
  intro ts hb
  simp only [parse_call_member_expr]
  refine soundLt_bind (ihMem ts (by omega)) ?_
  intro mem ts1 hm hlt1
  refine sound_bind sound_atTok ?_
  intro tok ts2 hat hle2
  split
  · exact ihCallE mem ts2 (by omega)
  · exact sound_ok (le_refl _)

end SkyScript

namespace SkyScript

/-- Induction step for `parse_multiplicitave_loop`. -/
theorem mult_loop_step (k : ℕ)
    (ihCallMem : ∀ ts, 30 * ts.length + 2 < k → SoundLt (parse_call_member_expr k ts) ts.length)
    (ihLoop : ∀ left ts, 30 * ts.length < k → Sound (parse_multiplicitave_loop k left ts) ts.length) :
    ∀ left ts, 30 * ts.length < k + 1 → Sound (parse_multiplicitave_loop (k+1) left ts) ts.length := by
  intro left ts hb
  simp only [parse_multiplicitave_loop]
  refine sound_bind sound_atTok ?_
  intro tok ts1 hat hle1
  split
  · refine (soundLt_bind soundLt_eat ?_).toSound
    intro op ts2 he hlt2
    refine soundLt_bind (ihCallMem ts2 (by omega)) ?_ |>.toSound
    intro right ts3 hr hlt3
    exact ihLoop _ ts3 (by omega)
  · exact sound_ok (le_refl _)

/-- Induction step for `parse_multiplicitave_expr`. -/
theorem mult_step (k : ℕ)
    (ihCallMem : ∀ ts, 30 * ts.length + 2 < k → SoundLt (parse_call_member_expr k ts) ts.length)
    (ihLoop : ∀ left ts, 30 * ts.length < k → Sound (parse_multiplicitave_loop k left ts) ts.length) :
    ∀ ts, 30 * ts.length + 3 < k + 1 → SoundLt (parse_multiplicitave_expr (k+1) ts) ts.length := by
  intro ts hb
  simp only [parse_multiplicitave_expr]
  refine soundLt_bind (ihCallMem ts (by omega)) ?_
  intro left ts1 h1 hlt1
  exact ihLoop left ts1 (by omega)

/-- Induction step for `parse_additive_loop`. -/
theorem additive_loop_step (k : ℕ)
    (ihMul : ∀ ts, 30 * ts.length + 3 < k → SoundLt (parse_multiplicitave_expr k ts) ts.length)
    (ihLoop : ∀ left ts, 30 * ts.length < k → Sound (parse_additive_loop k left ts) ts.length) :
    ∀ left ts, 30 * ts.length < k + 1 → Sound (parse_additive_loop (k+1) left ts) ts.length := by
  intro left ts hb
  simp only [parse_additive_loop]
  refine sound_bind sound_atTok ?_
  intro tok ts1 hat hle1
  split
  · refine (soundLt_bind soundLt_eat ?_).toSound
    intro op ts2 he hlt2
    refine soundLt_bind (ihMul ts2 (by omega)) ?_ |>.toSound
    intro right ts3 hr hlt3
    exact ihLoop _ ts3 (by omega)
  · exact sound_ok (le_refl _)

/-- Induction step for `parse_additive_expr`. -/
theorem additive_step (k : ℕ)
    (ihMul : ∀ ts, 30 * ts.length + 3 < k → SoundLt (parse_multiplicitave_expr k ts) ts.length)
    (ihLoop : ∀ left ts, 30 * ts.length < k → Sound (parse_additive_loop k left ts) ts.length) :
    ∀ ts, 30 * ts.length + 4 < k + 1 → SoundLt (parse_additive_expr (k+1) ts) ts.length := by
  intro ts hb
  simp only [parse_additive_expr]
  refine soundLt_bind (ihMul ts (by omega)) ?_
  intro left ts1 h1 hlt1
  exact ihLoop left ts1 (by omega)

/-- Induction step for `parse_object_props`. -/
theorem object_props_step (k : ℕ)
    (ihExpr : ∀ ts, 30 * ts.length + 7 < k → SoundLt (parse_expr k ts) ts.length)
    (ihProps : ∀ ts, 30 * ts.length < k → Sound (parse_object_props k ts) ts.length) :
    ∀ ts, 30 * ts.length < k + 1 → Sound (parse_object_props (k+1) ts) ts.length := by
  intro ts hb
  simp only [parse_object_props]
  refine sound_bind sound_atTok ?_
  intro tok ts1 hat hle1
  split
  · refine (soundLt_bind soundLt_expect ?_).toSound
    intro keyTok ts2 hk hlt2
    refine sound_bind sound_atTok ?_
    intro tok2 ts3 hat2 hle3
    split
    · refine (soundLt_bind soundLt_eat ?_).toSound
      intro _ ts4 he hlt4
      refine sound_bind (ihProps ts4 (by omega)) ?_
      intro rest ts5 hp hle5
      exact sound_ok (le_refl _)
    · split
      · refine sound_bind (ihProps ts3 (by omega)) ?_
        intro rest ts4 hp hle4
        exact sound_ok (le_refl _)
      · refine (soundLt_bind soundLt_expect ?_).toSound
        intro _ ts4 hc hlt4
        refine sound_bind (ihExpr ts4 (by omega)).toSound ?_
        intro value ts5 hv hle5
        refine sound_bind sound_atTok ?_
        intro tok3 ts6 hat3 hle6
        refine sound_bind ?_ ?_
        · split
          · refine (soundLt_bind soundLt_expect ?_).toSound
            intro _ ts7 hcm hlt7
            exact sound_ok (le_refl _)
          · exact sound_ok (le_refl _)
        · intro _ ts7 hu hle7
          refine sound_bind (ihProps ts7 (by omega)) ?_
          intro rest ts8 hp hle8
          exact sound_ok (le_refl _)
  · exact sound_ok (le_refl _)

/-- Induction step for `parse_object_expr`. -/
theorem object_step (k : ℕ)
    (ihAdd : ∀ ts, 30 * ts.length + 4 < k → SoundLt (parse_additive_expr k ts) ts.length)
    (ihProps : ∀ ts, 30 * ts.length < k → Sound (parse_object_props k ts) ts.length) :
    ∀ ts, 30 * ts.length + 5 < k + 1 → SoundLt (parse_object_expr (k+1) ts) ts.length := by
  intro ts hb
  simp only [parse_object_expr]
  refine sound_bind_lt sound_atTok ?_
  intro tok ts1 hat hle1
  split
  · exact ihAdd ts1 (by omega)
  · refine soundLt_bind soundLt_eat ?_
    intro _ ts2 he hlt2
    refine sound_bind (ihProps ts2 (by omega)) ?_
    intro props ts3 hp hle3
    refine (soundLt_bind soundLt_expect ?_).toSound
    intro _ ts4 hcb hlt4
    exact sound_ok (le_refl _)

/-- Induction step for `parse_assignment_expr`. -/
theorem assignment_step (k : ℕ)
    (ihObj : ∀ ts, 30 * ts.length + 5 < k → SoundLt (parse_object_expr k ts) ts.length)
    (ihAssign : ∀ ts, 30 * ts.length + 6 < k → SoundLt (parse_assignment_expr k ts) ts.length) :
    ∀ ts, 30 * ts.length + 6 < k + 1 → SoundLt (parse_assignment_expr (k+1) ts) ts.length := by
  intro ts hb
  simp only [parse_assignment_expr]
  refine soundLt_bind (ihObj ts (by omega)) ?_
  intro left ts1 ho hlt1
  refine sound_bind sound_atTok ?_
  intro tok ts2 hat hle2
  split
  · refine (soundLt_bind soundLt_eat ?_).toSound
    intro _ ts3 he hlt3
    refine soundLt_bind (ihAssign ts3 (by omega)) ?_ |>.toSound
    intro value ts4 hv hlt4
    exact sound_ok (le_refl _)
  · exact sound_ok (le_refl _)

/-- Induction step for `parse_expr`. -/
theorem expr_step (k : ℕ)
    (ihAssign : ∀ ts, 30 * ts.length + 6 < k → SoundLt (parse_assignment_expr k ts) ts.length) :
    ∀ ts, 30 * ts.length + 7 < k + 1 → SoundLt (parse_expr (k+1) ts) ts.length := by
  intro ts hb
  simp only [parse_expr]
  exact ihAssign ts (by omega)

/-- Induction step for `parse_var_declaration`. -/
theorem var_step (k : ℕ)
    (ihExpr : ∀ ts, 30 * ts.length + 7 < k → SoundLt (parse_expr k ts) ts.length) :
    ∀ ts, 30 * ts.length < k + 1 → SoundLt (parse_var_declaration (k+1) ts) ts.length := by
  intro ts hb
  simp only [parse_var_declaration]
  refine soundLt_bind soundLt_eat ?_
  intro kw ts1 he hlt1
  refine (soundLt_bind soundLt_expect ?_).toSound
  intro idt ts2 hex hlt2
  refine sound_bind sound_atTok ?_
  intro tok ts3 hat hle3
  split
  · refine (soundLt_bind soundLt_eat ?_).toSound
    intro _ ts4 he2 hlt4
    split
    · exact sound_err (by simp)
    · exact sound_ok (le_refl _)
  · refine (soundLt_bind soundLt_expect ?_).toSound
    intro _ ts4 heq hlt4
    refine sound_bind (ihExpr ts4 (by omega)).toSound ?_
    intro v ts5 hv hle5
    refine (soundLt_bind soundLt_expect ?_).toSound
    intro _ ts6 hsemi hlt6
    exact sound_ok (le_refl _)

/-- Induction step for `parse_fn_declaration`. -/
theorem fn_step (k : ℕ)
    (ihArgs : ∀ ts, 30 * ts.length < k → SoundLt (parse_args k ts) ts.length)
    (ihBlock : ∀ ts, 30 * ts.length + 9 < k → Sound (parse_block_body k ts) ts.length) :
    ∀ ts, 30 * ts.length < k + 1 → SoundLt (parse_fn_declaration (k+1) ts) ts.length := by
  intro ts hb
  simp only [parse_fn_declaration]
  refine soundLt_bind soundLt_eat ?_
  intro _ ts1 he hlt1
  refine (soundLt_bind soundLt_expect ?_).toSound
  intro nm ts2 hex hlt2
  refine sound_bind (ihArgs ts2 (by omega)).toSound ?_
  intro args ts3 ha hle3
  cases hcp : collectParams args with
  | error e =>
    exact sound_err (by rw [collectParams_error hcp]; simp)
  | ok params =>
    refine (soundLt_bind soundLt_expect ?_).toSound
    intro _ ts4 hob hlt4
    refine sound_bind (ihBlock ts4 (by omega)) ?_
    intro body ts5 hbody hle5
    refine (soundLt_bind soundLt_expect ?_).toSound
    intro _ ts6 hcb hlt6
    exact sound_ok (le_refl _)

/-- Induction step for `parse_if_stmt`. -/
theorem if_step (k : ℕ)
    (ihExpr : ∀ ts, 30 * ts.length + 7 < k → SoundLt (parse_expr k ts) ts.length)
    (ihBlock : ∀ ts, 30 * ts.length + 9 < k → Sound (parse_block_body k ts) ts.length)
    (ihIf : ∀ ts, 30 * ts.length < k → SoundLt (parse_if_stmt k ts) ts.length) :
    ∀ ts, 30 * ts.length < k + 1 → SoundLt (parse_if_stmt (k+1) ts) ts.length := by
  intro ts hb
  simp only [parse_if_stmt]
  refine soundLt_bind soundLt_expect ?_
  intro _ ts1 hif hlt1
  refine sound_bind (ihExpr ts1 (by omega)).toSound ?_
  intro cond ts2 hc hle2
  refine (soundLt_bind soundLt_expect ?_).toSound
  intro _ ts3 hob hlt3
  refine sound_bind (ihBlock ts3 (by omega)) ?_
  intro cons ts4 hcons hle4
  refine (soundLt_bind soundLt_expect ?_).toSound
  intro _ ts5 hcb hlt5
  refine sound_bind sound_atTok ?_
  intro tok ts6 hat hle6
  split
  · refine (soundLt_bind soundLt_eat ?_).toSound
    intro _ ts7 he hlt7
    refine sound_bind sound_atTok ?_
    intro tok2 ts8 hat2 hle8
    split
    · refine sound_bind (ihIf ts8 (by omega)).toSound ?_
      intro inner ts9 hi hle9
      exact sound_ok (le_refl _)
    · refine (soundLt_bind soundLt_expect ?_).toSound
      intro _ ts9 hob2 hlt9
      refine sound_bind (ihBlock ts9 (by omega)) ?_
      intro alt tsA halt hleA
      refine (soundLt_bind soundLt_expect ?_).toSound
      intro _ tsB hcb2 hltB
      exact sound_ok (le_refl _)
  · exact sound_ok (le_refl _)

/-- Induction step for `parse_stmt`. -/
theorem stmt_step (k : ℕ)
    (ihVar : ∀ ts, 30 * ts.length < k → SoundLt (parse_var_declaration k ts) ts.length)
    (ihFn : ∀ ts, 30 * ts.length < k → SoundLt (parse_fn_declaration k ts) ts.length)
    (ihIf : ∀ ts, 30 * ts.length < k → SoundLt (parse_if_stmt k ts) ts.length)
    (ihExpr : ∀ ts, 30 * ts.length + 7 < k → SoundLt (parse_expr k ts) ts.length) :
    ∀ ts, 30 * ts.length + 8 < k + 1 → SoundLt (parse_stmt (k+1) ts) ts.length := by
  intro ts hb
  simp only [parse_stmt]
  refine sound_bind_lt sound_atTok ?_
  intro tok ts1 hat hle1
  rcases tok with ⟨ty, v⟩
  cases ty
  case Set => exact ihVar ts1 (by omega)
  case Lock => exact ihVar ts1 (by omega)
  case Fun => exact ihFn ts1 (by omega)
  case If => exact ihIf ts1 (by omega)
  all_goals
    refine soundLt_bind (ihExpr ts1 (by omega)) ?_
  all_goals
    intro e ts2 he hlt2
  all_goals
    exact sound_ok (le_refl _)

/-- Induction step for `parse_block_body`. -/
theorem block_step (k : ℕ)
    (ihStmt : ∀ ts, 30 * ts.length + 8 < k → SoundLt (parse_stmt k ts) ts.length)
    (ihBlock : ∀ ts, 30 * ts.length + 9 < k → Sound (parse_block_body k ts) ts.length) :
    ∀ ts, 30 * ts.length + 9 < k + 1 → Sound (parse_block_body (k+1) ts) ts.length := by
  intro ts hb
  simp only [parse_block_body]
  refine sound_bind sound_atTok ?_
  intro tok ts1 hat hle1
  split
  · refine (soundLt_bind (ihStmt ts1 (by omega)) ?_).toSound
    intro s ts2 hs hlt2
    refine sound_bind (ihBlock ts2 (by omega)) ?_
    intro rest ts3 hr hle3
    exact sound_ok (le_refl _)
  · exact sound_ok (le_refl _)

/-- Induction step for `parse_program_body`. -/
theorem program_step (k : ℕ)
    (ihStmt : ∀ ts, 30 * ts.length + 8 < k → SoundLt (parse_stmt k ts) ts.length)
    (ihProg : ∀ ts, 30 * ts.length + 9 < k → Sound (parse_program_body k ts) ts.length) :
    ∀ ts, 30 * ts.length + 9 < k + 1 → Sound (parse_program_body (k+1) ts) ts.length := by
  intro ts hb
  simp only [parse_program_body]
  refine sound_bind sound_atTok ?_
  intro tok ts1 hat hle1
  split
  · refine (soundLt_bind (ihStmt ts1 (by omega)) ?_).toSound
    intro s ts2 hs hlt2
    refine sound_bind (ihProg ts2 (by omega)) ?_
    intro rest ts3 hr hle3
    exact sound_ok (le_refl _)
  · exact sound_ok (le_refl _)

end SkyScript

namespace SkyScript

/-- Fuel sufficiency for the whole parser: with fuel exceeding a linear
bound in the buffer length, no parse function runs out of fuel, and each
success leaves a (strictly, for token-consuming productions) shorter
buffer. -/
theorem parserFuelSound : ∀ fuel : ℕ,
    (∀ ts, 30 * ts.length < fuel → SoundLt (parse_primary_expr fuel ts) ts.length)
  ∧ (∀ left ts, 30 * ts.length < fuel → Sound (parse_member_loop fuel left ts) ts.length)
  ∧ (∀ ts, 30 * ts.length + 1 < fuel → SoundLt (parse_member_expr fuel ts) ts.length)
  ∧ (∀ ts, 30 * ts.length < fuel → SoundLt (parse_args fuel ts) ts.length)
  ∧ (∀ ts, 30 * ts.length < fuel → Sound (parse_arguments_rest fuel ts) ts.length)
  ∧ (∀ ts, 30 * ts.length + 7 < fuel → SoundLt (parse_arguments_list fuel ts) ts.length)
  ∧ (∀ left ts, 30 * ts.length + 1 < fuel → Sound (parse_call_expr fuel left ts) ts.length)
  ∧ (∀ ts, 30 * ts.length + 2 < fuel → SoundLt (parse_call_member_expr fuel ts) ts.length)
  ∧ (∀ left ts, 30 * ts.length < fuel → Sound (parse_multiplicitave_loop fuel left ts) ts.length)
  ∧ (∀ ts, 30 * ts.length + 3 < fuel → SoundLt (parse_multiplicitave_expr fuel ts) ts.length)
  ∧ (∀ left ts, 30 * ts.length < fuel → Sound (parse_additive_loop fuel left ts) ts.length)
  ∧ (∀ ts, 30 * ts.length + 4 < fuel → SoundLt (parse_additive_expr fuel ts) ts.length)
  ∧ (∀ ts, 30 * ts.length < fuel → Sound (parse_object_props fuel ts) ts.length)
  ∧ (∀ ts, 30 * ts.length + 5 < fuel → SoundLt (parse_object_expr fuel ts) ts.length)
  ∧ (∀ ts, 30 * ts.length + 6 < fuel → SoundLt (parse_assignment_expr fuel ts) ts.length)
  ∧ (∀ ts, 30 * ts.length + 7 < fuel → SoundLt (parse_expr fuel ts) ts.length)
  ∧ (∀ ts, 30 * ts.length < fuel → SoundLt (parse_var_declaration fuel ts) ts.length)
  ∧ (∀ ts, 30 * ts.length < fuel → SoundLt (parse_fn_declaration fuel ts) ts.length)
  ∧ (∀ ts, 30 * ts.length < fuel → SoundLt (parse_if_stmt fuel ts) ts.length)
  ∧ (∀ ts, 30 * ts.length + 8 < fuel → SoundLt (parse_stmt fuel ts) ts.length)
  ∧ (∀ ts, 30 * ts.length + 9 < fuel → Sound (parse_block_body fuel ts) ts.length)
  ∧ (∀ ts, 30 * ts.length + 9 < fuel → Sound (parse_program_body fuel ts) ts.length) := by
  intro fuel
  induction fuel with
  | zero =>
    refine ⟨?_, ?_, ?_, ?_, ?_, ?_, ?_, ?_, ?_, ?_, ?_, ?_, ?_, ?_, ?_, ?_, ?_, ?_, ?_, ?_, ?_, ?_⟩
    all_goals first
      | exact fun ts h => absurd h (by omega)
      | exact fun left ts h => absurd h (by omega)
  | succ k ih =>
    obtain ⟨ihPrim, ihMemLoop, ihMem, ihArgs, ihArgsRest, ihArgsList, ihCallE, ihCallMem,
      ihMulLoop, ihMul, ihAddLoop, ihAdd, ihProps, ihObj, ihAssign, ihExpr, ihVar, ihFn,
      ihIf, ihStmt, ihBlock, ihProg⟩ := ih
    exact ⟨primary_step k ihExpr,
      member_loop_step k ihPrim ihExpr ihMemLoop,
      member_step k ihPrim ihMemLoop,
      args_step k ihArgsList,
      arguments_rest_step k ihAssign ihArgsRest,
      arguments_list_step k ihAssign ihArgsRest,
      call_expr_step k ihArgs ihCallE,
      call_member_step k ihMem ihCallE,
      mult_loop_step k ihCallMem ihMulLoop,
      mult_step k ihCallMem ihMulLoop,
      additive_loop_step k ihMul ihAddLoop,
      additive_step k ihMul ihAddLoop,
      object_props_step k ihExpr ihProps,
      object_step k ihAdd ihProps,
      assignment_step k ihObj ihAssign,
      expr_step k ihAssign,
      var_step k ihExpr,
      fn_step k ihArgs ihBlock,
      if_step k ihExpr ihBlock ihIf,
      stmt_step k ihVar ihFn ihIf ihExpr,
      block_step k ihStmt ihBlock,
      program_step k ihStmt ihProg⟩

/-- C8: for every finite token sequence (in particular every EOF-terminated
one) the top-level parse with the linear fuel budget `fuelFor` terminates
with a definite outcome: it returns a Program or signals a genuine parse
error — never the fuel-exhaustion artifact.  Every production either
consumes input or fails immediately, which is what bounds the recursion. -/
theorem claimC8_theorem :
    ∀ ts : List Token,
      (∃ p rest, produceAST (fuelFor ts) ts = .ok p rest) ∨
      (∃ e rest, produceAST (fuelFor ts) ts = .err e rest ∧ e ≠ .fuelOut) := by
  intro ts
  obtain ⟨-, -, -, -, -, -, -, -, -, -, -, -, -, -, -, -, -, -, -, -, -, hprog⟩ :=
    parserFuelSound (fuelFor ts)
  have h := hprog ts (by simp only [fuelFor]; omega)
  cases hres : parse_program_body (fuelFor ts) ts with
  | ok body rest =>
    left
    exact ⟨⟨body⟩, rest, by simp [produceAST, hres, PRes.bind]⟩
  | err e rest =>
    right
    refine ⟨e, rest, by simp [produceAST, hres, PRes.bind], ?_⟩
    intro he
    rw [he] at hres
    exact h.1 rest hres

end SkyScript
